import Mathlib

/-!
Verification of the acquisition-and-reconciliation pipeline of the
AI-Real-Estate repository: a shallow embedding in Lean 4 of the ranking
engine (nlp-service/src/ranking_engine.py), the price normalizer
(nlp-service/src/normalizer.py), the fuzzy matcher and merger
(scraper/src/matching_utils.py), the rate limiter
(scraper/src/rate_limiter.py) and the primary-source ingestion loop
(scraper/src/pvp_scraper.py), together with theorems settling the
testable properties stated in spec.md.

Python floats are modelled as exact rationals, dict-shaped records as
structures whose optional fields model absent keys, and external library
calls (difflib.SequenceMatcher, datetime.strptime, the regex engine)
as oracle parameters where the property does not depend on them.
-/

/-! ## Shared string utilities -/

/-- Membership test of a character sequence inside another, matching the
Python substring operator used as `needle in hay`. -/
def containsSeq (needle : List Char) : List Char → Bool
  | [] => needle.isEmpty
  | c :: rest => List.isPrefixOf needle (c :: rest) || containsSeq needle rest

/-- Python `needle in hay` on strings. -/
def pyIn (needle hay : String) : Bool := containsSeq needle.toList hay.toList

/-- Python str.lower, character by character. -/
def pyLower (s : String) : String := String.mk (s.toList.map Char.toLower)

/-- Python round-half-even of an exact rational to an integer, the model of
the built-in round on our float-as-rational embedding. -/
def pyRoundInt (x : ℚ) : ℤ :=
  let f := ⌊x⌋
  let r := x - f
  if r < 1/2 then f else if 1/2 < r then f + 1 else if f % 2 = 0 then f else f + 1

/-- Python round(x, 2). -/
def pyRound2 (x : ℚ) : ℚ := (pyRoundInt (x * 100) : ℚ) / 100

/-! ## Ranking engine (nlp-service/src/ranking_engine.py)

Records reaching the ranking engine are dicts; each field below models one
key consulted by the engine, with none standing for an absent key. -/

structure AuctionData where
  surface_sqm : Option ℚ := none
  city : Option String := none
  property_type : Option String := none
  description : Option String := none
  full_text : Option String := none
  base_price : Option ℚ := none
  estimated_value : Option ℚ := none
  auction_round : Option ℤ := none

/-- Ranking weights, externally configured (config.yaml when present,
otherwise the default block at ranking_engine.py lines 18-29). -/
structure Weights where
  price_discount : ℚ
  location_score : ℚ
  property_condition : ℚ
  legal_complexity : ℚ
  liquidity_potential : ℚ

/-- Default weight configuration (ranking_engine.py lines 19-29). -/
def defaultWeights : Weights :=
  { price_discount := 3/10, location_score := 1/4, property_condition := 3/20,
    legal_complexity := 3/20, liquidity_potential := 3/20 }

/-- Weight sum, as combined by calculate_ai_score. -/
def weightSum (w : Weights) : ℚ :=
  w.price_discount + w.location_score + w.property_condition +
    w.legal_complexity + w.liquidity_potential

/-- City tiers used by estimate_market_value (ranking_engine.py lines 48-49). -/
def tier_1_cities : List String := ["Roma", "Milano", "Firenze", "Bologna", "Venezia"]

/-- Second pricing tier of estimate_market_value. -/
def tier_2_cities : List String := ["Torino", "Napoli", "Genova", "Palermo", "Bari"]

/-- Property-type multiplier table with default 1.0
(ranking_engine.py lines 59-70). -/
def type_multipliers (pt : String) : ℚ :=
  if pt = "Appartamento" then 1
  else if pt = "Villa" then 13/10
  else if pt = "Attico" then 6/5
  else if pt = "Locale Commerciale" then 9/10
  else if pt = "Ufficio" then 19/20
  else if pt = "Box" then 3/5
  else if pt = "Terreno" then 3/10
  else if pt = "Rustico" then 7/10
  else 1

/-- estimate_market_value (ranking_engine.py lines 34-74): surface times
city-tier price per sqm times type multiplier, with defaults 80 sqm,
1500 per sqm and multiplier 1. -/
def estimate_market_value (d : AuctionData) : ℚ :=
  let surface := d.surface_sqm.getD 80
  let city := d.city.getD ""
  let pt := d.property_type.getD "Appartamento"
  let base_price_sqm : ℚ :=
    if city ∈ tier_1_cities then 3500
    else if city ∈ tier_2_cities then 2200
    else 1500
  surface * base_price_sqm * type_multipliers pt

/-- calculate_price_discount_score (ranking_engine.py lines 77-105).
Neutral 50 when the base price is falsy or nonpositive or the estimate is
nonpositive; a falsy stored estimate is replaced by the derived one. -/
def calculate_price_discount_score (d : AuctionData) : ℚ :=
  let base_price := d.base_price.getD 0
  if base_price ≤ 0 then 50
  else
    let estimated_value :=
      match d.estimated_value with
      | none => estimate_market_value d
      | some v => if v = 0 then estimate_market_value d else v
    if estimated_value ≤ 0 then 50
    else max 0 (min 100 ((estimated_value - base_price) / estimated_value * 200))

/-- First location tier of calculate_location_score (ranking_engine.py line 116). -/
def location_tier_1 : List String :=
  ["Roma", "Milano", "Firenze", "Bologna", "Venezia", "Torino"]

/-- Second location tier (ranking_engine.py line 117). -/
def location_tier_2 : List String :=
  ["Napoli", "Genova", "Palermo", "Bari", "Catania", "Verona"]

/-- Third location tier (ranking_engine.py line 118). -/
def location_tier_3 : List String :=
  ["Padova", "Trieste", "Brescia", "Parma", "Modena", "Reggio Emilia"]

/-- calculate_location_score (ranking_engine.py lines 108-127). -/
def calculate_location_score (d : AuctionData) : ℚ :=
  let city := d.city.getD ""
  if city ∈ location_tier_1 then 90
  else if city ∈ location_tier_2 then 75
  else if city ∈ location_tier_3 then 65
  else 50

/-- Lower-cased description and full text joined by one space, as built by
the condition and legal scores (ranking_engine.py lines 134-136, 160-162). -/
def combinedText (d : AuctionData) : String :=
  pyLower (d.description.getD "") ++ " " ++ pyLower (d.full_text.getD "")

/-- Keyword list scan, Python any(kw in combined for kw in kws). -/
def anyKeyword (kws : List String) (text : String) : Bool :=
  kws.any fun kw => pyIn kw text

/-- Excellent-condition keywords (ranking_engine.py line 138). -/
def excellent_keywords : List String :=
  ["ottimo", "ristrutturato", "nuovo", "recente", "moderno"]

/-- Good-condition keywords (ranking_engine.py line 139). -/
def good_keywords : List String := ["buono", "abitabile", "discreto"]

/-- Fair-condition keywords (ranking_engine.py line 140). -/
def fair_keywords : List String :=
  ["da ristrutturare", "necessita lavori", "da ammodernare"]

/-- Poor-condition keywords (ranking_engine.py line 141). -/
def poor_keywords : List String := ["pessimo", "da demolire", "rudere", "collabente"]

/-- calculate_property_condition_score (ranking_engine.py lines 130-152). -/
def calculate_property_condition_score (d : AuctionData) : ℚ :=
  let combined := combinedText d
  if anyKeyword excellent_keywords combined then 90
  else if anyKeyword good_keywords combined then 75
  else if anyKeyword fair_keywords combined then 50
  else if anyKeyword poor_keywords combined then 25
  else 60

/-- calculate_legal_complexity_score (ranking_engine.py lines 155-187):
base 70, keyword penalties and rewards, auction-round penalty, clamped. -/
def calculate_legal_complexity_score (d : AuctionData) : ℚ :=
  let combined := combinedText d
  let s0 : ℚ := 70
  let s1 := if pyIn "occupato" combined then s0 - 30 else s0
  let s2 := if pyIn "pignoramento" combined then s1 - 20 else s1
  let s3 := if pyIn "ipoteca" combined then s2 - 15 else s2
  let s4 := if pyIn "libero" combined then s3 + 20 else s3
  let s5 := if pyIn "prima asta" combined then s4 + 10 else s4
  let ar := d.auction_round.getD 1
  let s6 := if ar = 2 then s5 - 5 else if 3 ≤ ar then s5 - 10 else s5
  max 0 (min 100 s6)

/-- Liquidity base score per property type with default 60
(ranking_engine.py lines 198-210). -/
def liquidity_type_scores (pt : String) : ℚ :=
  if pt = "Appartamento" then 90
  else if pt = "Attico" then 85
  else if pt = "Villa" then 70
  else if pt = "Ufficio" then 65
  else if pt = "Locale Commerciale" then 60
  else if pt = "Box" then 75
  else if pt = "Magazzino" then 50
  else if pt = "Terreno" then 40
  else if pt = "Rustico" then 45
  else 60

/-- calculate_liquidity_score (ranking_engine.py lines 190-223): type base
score, apartment size bonus, capped at 100. -/
def calculate_liquidity_score (d : AuctionData) : ℚ :=
  let pt := d.property_type.getD "Appartamento"
  let surface := d.surface_sqm.getD 80
  let base_score := liquidity_type_scores pt
  let with_bonus :=
    if pt = "Appartamento" then
      base_score +
        (if 60 ≤ surface ∧ surface ≤ 120 then 10
         else if (40 ≤ surface ∧ surface < 60) ∨ (120 < surface ∧ surface ≤ 150) then 5
         else 0)
    else base_score
  min 100 with_bonus

/-- The five named sub-scores returned as the breakdown by calculate_ai_score. -/
structure ScoreBreakdown where
  price_discount : ℚ
  location_score : ℚ
  property_condition : ℚ
  legal_complexity : ℚ
  liquidity_potential : ℚ
  deriving DecidableEq

/-- calculate_ai_score (ranking_engine.py lines 226-271): weighted sum of the
five sub-scores under the externally configured weights, clamped to [0,100]
and rounded to two decimals, returned with the rounded breakdown. -/
def calculate_ai_score (w : Weights) (d : AuctionData) : ℚ × ScoreBreakdown :=
  let price_score := calculate_price_discount_score d
  let location_score := calculate_location_score d
  let condition_score := calculate_property_condition_score d
  let legal_score := calculate_legal_complexity_score d
  let liquidity_score := calculate_liquidity_score d
  let overall :=
    price_score * w.price_discount +
    location_score * w.location_score +
    condition_score * w.property_condition +
    legal_score * w.legal_complexity +
    liquidity_score * w.liquidity_potential
  let clamped := max 0 (min 100 overall)
  (pyRound2 clamped,
    { price_discount := pyRound2 price_score,
      location_score := pyRound2 location_score,
      property_condition := pyRound2 condition_score,
      legal_complexity := pyRound2 legal_score,
      liquidity_potential := pyRound2 liquidity_score })

/-! ## Price normalization (nlp-service/src/normalizer.py)

normalize_price strips currency markers, removes the dots, turns the comma
into a dot and reads the first number matched by the regular expression
d+(.d(1,2))?, returning 0.0 when nothing matches. -/

/-- Fuelled scan of Python str.replace(pat, "") removing every
non-overlapping occurrence of pat left to right; the fuel only bounds the
recursion and is set to the length of the scanned list. -/
def pyRemoveSeqF (pat : List Char) : ℕ → List Char → List Char
  | 0, l => l
  | _ + 1, [] => []
  | n + 1, c :: rest =>
    if pat ≠ [] ∧ List.isPrefixOf pat (c :: rest) then
      pyRemoveSeqF pat n (List.drop pat.length (c :: rest))
    else
      c :: pyRemoveSeqF pat n rest

/-- Python str.replace(pat, "") removing every non-overlapping occurrence of
pat, scanning left to right. -/
def pyRemoveSeq (pat hay : List Char) : List Char :=
  pyRemoveSeqF pat hay.length hay

/-- Numeric value of a digit string, most significant first. -/
def natOfDigits (ds : List Char) : ℕ :=
  ds.foldl (fun acc c => 10 * acc + (c.toNat - Char.toNat '0')) 0

/-- Value of the float literal made of integer digits ds and fractional
digits fs, the exact-rational reading Python float() gives the matched text. -/
def ratOfDigits (ds fs : List Char) : ℚ :=
  (natOfDigits ds : ℚ) + (natOfDigits fs : ℚ) / (10 : ℚ) ^ fs.length

/-- Leftmost match of the normalizer regular expression d+(.d(1,2))? in a
character list: the maximal digit run starting at the first digit, plus up to
two fractional digits after a dot. Returns (integer digits, fraction digits). -/
def findNumMatch : List Char → Option (List Char × List Char)
  | [] => none
  | c :: rest =>
    if c.isDigit then
      let ds := List.takeWhile Char.isDigit (c :: rest)
      match List.dropWhile Char.isDigit (c :: rest) with
      | '.' :: d1 :: more =>
        if d1.isDigit then
          match more with
          | d2 :: _ => if d2.isDigit then some (ds, [d1, d2]) else some (ds, [d1])
          | [] => some (ds, [d1])
        else some (ds, [])
      | _ => some (ds, [])
    else findNumMatch rest

/-- normalize_price (normalizer.py lines 26-45): drop the euro sign and the
EUR marker, remove the dots, turn the comma into a dot, read the first
number; 0.0 when no number is found. -/
def normalize_price (s : String) : ℚ :=
  let t1 := pyRemoveSeq "EUR".toList (s.toList.filter (fun c => c ≠ '€'))
  let t2 := (t1.filter (fun c => c ≠ '.')).map (fun c => if c = ',' then '.' else c)
  match findNumMatch t2 with
  | some (ds, fs) => ratOfDigits ds fs
  | none => 0

/-- Character list of a price written with dots as thousands separators and a
comma before the decimals: leading group g0, further three-digit groups gs
each preceded by a dot, decimal digits ds preceded by a comma when present. -/
def mkPriceChars (g0 : List Char) (gs : List (List Char)) (ds : List Char) : List Char :=
  g0 ++ (gs.foldr (fun g acc => ('.' :: g) ++ acc) []) ++
    (if ds.isEmpty then [] else ',' :: ds)

/-- The price string built from the groups g0, gs and the decimals ds. -/
def mkPriceStr (g0 : List Char) (gs : List (List Char)) (ds : List Char) : String :=
  String.mk (mkPriceChars g0 gs ds)

/-- Numeric value denoted by a valid price string with integer-part groups
g0, gs and decimal digits ds. -/
def priceValue (g0 : List Char) (gs : List (List Char)) (ds : List Char) : ℚ :=
  (natOfDigits (g0 ++ gs.foldr (· ++ ·) []) : ℚ) +
    (natOfDigits ds : ℚ) / (10 : ℚ) ^ ds.length

/-! ## NER price extraction (nlp-service/src/ner_extractor.py)

extract_price tries three regular-expression patterns in order; the regex
search and the Python float conversion are external-library calls, modelled
as oracles. What the code itself adds is the order of the loop, the
dot-and-comma cleanup and the sanity band at line 102. -/

/-- Cleanup applied to a captured price group (ner_extractor.py line 98):
remove the dots, then turn every comma into a dot. -/
def pyCommaDot (s : String) : String :=
  String.mk ((s.toList.filter (fun c => c ≠ '.')).map (fun c => if c = ',' then '.' else c))

/-- extract_price (ner_extractor.py lines 85-107) over an oracle regex search
(pattern index to captured group) and an oracle float conversion: each
pattern in turn, cleanup, conversion, and the 1000 to 100000000 sanity band;
a parse failure or an out-of-band value moves to the next pattern. -/
def extract_price_from (toFloat : String → Option ℚ)
    (search : ℕ → Option String) : List ℕ → Option ℚ
  | [] => none
  | i :: rest =>
    match search i with
    | none => extract_price_from toFloat search rest
    | some g =>
      match toFloat (pyCommaDot g) with
      | none => extract_price_from toFloat search rest
      | some price =>
        if 1000 ≤ price ∧ price ≤ 100000000 then some price
        else extract_price_from toFloat search rest

/-- extract_price over its three patterns. -/
def extract_price (toFloat : String → Option ℚ) (search : ℕ → Option String) : Option ℚ :=
  extract_price_from toFloat search [0, 1, 2]

/-! ## Fuzzy matching and enrichment (scraper/src/matching_utils.py)

The live reconciliation path (fallcoaste_scraper.py imports find_best_match
and enrich_pvp_auction from matching_utils). String similarity calls
difflib.SequenceMatcher and date parsing calls datetime.strptime, both
external libraries, modelled as oracle parameters ratio and pdate; a parsed
datetime is a rational day number, and timedelta.days of a difference is its
floor. -/

/-- A primary (PVP) auction dict: the named fields are the keys read or
written by matching and enrichment, and other carries every remaining key. -/
structure PvpAuction where
  address : Option String := none
  city : Option String := none
  court : Option String := none
  auction_date : Option String := none
  base_price : Option ℚ := none
  external_id : Option String := none
  photos : List String := []
  floor_plans : List String := []
  documents : List String := []
  latitude : Option ℚ := none
  longitude : Option ℚ := none
  enriched_from_fallcoaste : Option Bool := none
  enrichment_score : Option ℚ := none
  fallcoaste_url : Option String := none
  fallcoaste_details : Option (Option String × Option String × Option String ×
    Option String × Option String × Option String × Option String) := none
  other : String → Option String := fun _ => none

/-- A secondary (Fallcoaste) candidate dict, same convention. -/
structure FallAuction where
  address : Option String := none
  court : Option String := none
  auction_date : Option String := none
  base_price : Option ℚ := none
  url : Option String := none
  photos : List String := []
  floor_plans : List String := []
  documents : List String := []
  latitude : Option ℚ := none
  longitude : Option ℚ := none
  procedura_n : Option String := none
  tipo_procedura : Option String := none
  referente_procedura : Option String := none
  termine_presentazione : Option String := none
  termine_visita : Option String := none
  cauzione_minima : Option String := none
  annotazioni : Option String := none
  other : String → Option String := fun _ => none

/-- Python truthiness of an optional numeric dict entry: present and nonzero. -/
def truthyNum (x : Option ℚ) : Bool :=
  match x with
  | none => false
  | some v => v ≠ 0

/-- Fuelled word splitter; the fuel only bounds the recursion and is set to
the length of the scanned list. -/
def pyWordsF : ℕ → List Char → List (List Char)
  | 0, _ => []
  | _ + 1, [] => []
  | n + 1, c :: rest =>
    if c.isWhitespace then pyWordsF n rest
    else
      (c :: List.takeWhile (fun x => ¬ x.isWhitespace) rest) ::
        pyWordsF n (List.dropWhile (fun x => ¬ x.isWhitespace) rest)

/-- Words of a string: split on whitespace runs, dropping empty pieces,
the behaviour of Python str.split() after str.strip(). -/
def pyWords (l : List Char) : List (List Char) := pyWordsF l.length l

/-- normalize_string (matching_utils.py lines 13-17): lower-case, strip and
collapse whitespace runs to single spaces. -/
def normalize_string (s : String) : String :=
  String.intercalate " " (((pyWords (pyLower s).toList)).map fun w => String.mk w)

/-- similarity_ratio (matching_utils.py lines 20-28) over the
SequenceMatcher oracle ratio: normalize both sides, return 0.0 when either
normalizes to empty, otherwise the ratio of the normalized strings. -/
def simRatioWith (ratio : String → String → ℚ) (s1 s2 : String) : ℚ :=
  let n1 := normalize_string s1
  let n2 := normalize_string s2
  if n1 = "" ∨ n2 = "" then 0 else ratio n1 n2

/-- dates_match (matching_utils.py lines 53-62) over the strptime oracle
pdate: both sides must parse and the day difference, floored as
timedelta.days floors, must be within tolerance. -/
def dates_match (pdate : String → Option ℚ) (d1 d2 : String) (tol : ℤ) : Bool :=
  match pdate d1, pdate d2 with
  | some a, some b => decide (|⌊a - b⌋| ≤ tol)
  | _, _ => false

/-- prices_match (matching_utils.py lines 65-74): both present and nonzero,
and the relative difference against the larger price within the tolerance
percentage. -/
def prices_match (p1 p2 : Option ℚ) (tol : ℚ) : Bool :=
  match p1, p2 with
  | some a, some b =>
    if a = 0 ∨ b = 0 then false
    else decide (|a - b| / max a b * 100 ≤ tol)
  | _, _ => false

/-- The address, court and date part of calculate_match_score
(matching_utils.py lines 88-109): address similarity weighted 0.30, court
similarity weighted 0.25, and 0.25 when the dates match within 7 days. -/
def match_score_base (ratio : String → String → ℚ) (pdate : String → Option ℚ)
    (pvp : PvpAuction) (fall : FallAuction) : ℚ :=
  simRatioWith ratio (pvp.address.getD "" ++ " " ++ pvp.city.getD "")
      (fall.address.getD "") * (3/10) +
    simRatioWith ratio (pvp.court.getD "") (fall.court.getD "") * (1/4) +
    (if dates_match pdate (pvp.auction_date.getD "") (fall.auction_date.getD "") 7
      then 1/4 else 0)

/-- calculate_match_score (matching_utils.py lines 77-118): the base part
plus 0.20 exactly when prices_match holds at tolerance 5 percent. -/
def calculate_match_score (ratio : String → String → ℚ) (pdate : String → Option ℚ)
    (pvp : PvpAuction) (fall : FallAuction) : ℚ :=
  match_score_base ratio pdate pvp fall +
    (if prices_match pvp.base_price fall.base_price 5 then 1/5 else 0)

/-- Selection loop of find_best_match (matching_utils.py lines 130-138):
best-so-far record and score, updated when a score strictly beats the best
and reaches the threshold. -/
def find_best_match_aux (score : PvpAuction → ℚ) (min_score : ℚ) :
    List PvpAuction → Option PvpAuction → ℚ → Option PvpAuction × ℚ
  | [], best, best_score => (best, best_score)
  | p :: rest, best, best_score =>
    let s := score p
    if best_score < s ∧ min_score ≤ s then
      find_best_match_aux score min_score rest (some p) s
    else
      find_best_match_aux score min_score rest best best_score

/-- find_best_match (matching_utils.py lines 121-149): best candidate above
the threshold, or none. -/
def find_best_match (ratio : String → String → ℚ) (pdate : String → Option ℚ)
    (fall : FallAuction) (pvps : List PvpAuction) (min_score : ℚ) :
    Option (PvpAuction × ℚ) :=
  match find_best_match_aux
      (fun p => calculate_match_score ratio pdate p fall) min_score pvps none 0 with
  | (some b, bs) => some (b, bs)
  | (none, _) => none

/-- Accepted-match count over a fixed candidate list, the quantity of the
threshold-monotonicity property. -/
def matchedCount (ratio : String → String → ℚ) (pdate : String → Option ℚ)
    (falls : List FallAuction) (pvps : List PvpAuction) (min_score : ℚ) : ℕ :=
  falls.countP fun fall => (find_best_match ratio pdate fall pvps min_score).isSome

/-- enrich_pvp_auction (matching_utils.py lines 152-201): copy the primary
record, attach enrichment metadata, fill photos, floor plans, documents when
the primary entry is falsy and the candidate entry truthy, overwrite both
coordinates when either primary coordinate is falsy and the candidate has
both, and attach the fallcoaste_details block. -/
def enrich_pvp_auction (pvp : PvpAuction) (fall : FallAuction) (match_score : ℚ) :
    PvpAuction :=
  let photos := if pvp.photos.isEmpty ∧ ¬ fall.photos.isEmpty
    then fall.photos else pvp.photos
  let floor_plans := if pvp.floor_plans.isEmpty ∧ ¬ fall.floor_plans.isEmpty
    then fall.floor_plans else pvp.floor_plans
  let coords :=
    if (¬ truthyNum pvp.latitude ∨ ¬ truthyNum pvp.longitude) ∧
        (truthyNum fall.latitude ∧ truthyNum fall.longitude) then
      (fall.latitude, fall.longitude)
    else (pvp.latitude, pvp.longitude)
  let documents := if pvp.documents.isEmpty ∧ ¬ fall.documents.isEmpty
    then fall.documents else pvp.documents
  { pvp with
    enriched_from_fallcoaste := some true
    enrichment_score := some match_score
    fallcoaste_url := fall.url
    photos := photos
    floor_plans := floor_plans
    latitude := coords.1
    longitude := coords.2
    documents := documents
    fallcoaste_details := some (fall.procedura_n, fall.tipo_procedura,
      fall.referente_procedura, fall.termine_presentazione, fall.termine_visita,
      fall.cauzione_minima, fall.annotazioni) }

/-! ## Rate limiter (scraper/src/rate_limiter.py)

RateLimiter.wait reads the clock, sleeps the remainder of the minimum
interval when the last recorded request to the domain is too recent, and
records a fresh clock reading. The model makes time explicit: pre is the
real time elapsed before the first clock reading of the call, post the real
time elapsed between the end of the sleep and the second clock reading. -/

/-- Limiter state: per-domain last recorded request time (dict default 0)
and the current clock. -/
structure RateLimiterState where
  lastRequestTime : String → ℚ
  clock : ℚ

/-- Fresh limiter: empty dict, clock at an arbitrary origin 0. -/
def initLimiter : RateLimiterState := { lastRequestTime := fun _ => 0, clock := 0 }

/-- One wait call (rate_limiter.py lines 14-25) on a domain. -/
def rlWait (delay_ms : ℚ) (st : RateLimiterState) (domain : String)
    (pre post : ℚ) : RateLimiterState :=
  let current_time := st.clock + pre
  let last_time := st.lastRequestTime domain
  let time_since_last := current_time - last_time
  let min_interval := delay_ms / 1000
  let after_sleep :=
    if time_since_last < min_interval
    then current_time + (min_interval - time_since_last)
    else current_time
  let recorded := after_sleep + post
  { lastRequestTime := fun d => if d = domain then recorded else st.lastRequestTime d
    clock := recorded }

/-- One sequential call to RateLimiter.wait: target domain and the two
nonnegative real-time drifts of the call. -/
structure WaitCall where
  domain : String
  pre : ℚ
  post : ℚ

/-- Run a sequence of wait calls, returning the final state and the trace of
recorded request times with their domains, in order. -/
def rlRun (delay_ms : ℚ) : RateLimiterState → List WaitCall → List (String × ℚ)
  | _, [] => []
  | st, e :: es =>
    let st2 := rlWait delay_ms st e.domain e.pre e.post
    (e.domain, st2.clock) :: rlRun delay_ms st2 es

/-- Recorded request times of one domain, in order of issue. -/
def domainTimes (d : String) (tr : List (String × ℚ)) : List ℚ :=
  (tr.filter fun p => p.1 = d).map Prod.snd

/-! ## Primary-source ingestion run (scraper/src/pvp_scraper.py)

One fetch_api_data call issues exactly one HTTP request; on status 403 or
429 it raises an exception whose text is fixed by lines 77 and 80, and the
run loop (lines 155-243) matches on that text to stop the run. The network
is an environment mapping each page number to its outcome, and publishing
(publisher.py, an HTTP call) is an oracle predicate giving each auction item
a publish outcome. -/

/-- Outcome of one scrape_auction_list call for a page: the parsed auctions,
or a raised exception with its message text. -/
inductive PageResp (α : Type) where
  | ok (auctions : List α)
  | exn (msg : List Char)

/-- Exception text raised on HTTP 403 (pvp_scraper.py line 77). -/
def msg403 : List Char := "403 Forbidden - Sito potrebbe aver bannato questo IP".toList

/-- Exception text raised on HTTP 429 (pvp_scraper.py line 80). -/
def msg429 : List Char := "429 Too Many Requests - Rate limit superato".toList

/-- Status handling of fetch_api_data (pvp_scraper.py lines 74-88): 403 and
429 raise their fixed messages, other statuses at or above 400 raise through
raise_for_status with a message carrying the status digits, success returns
the page body. -/
def fetch_api_data (α : Type) (status : ℕ) (statusText : List Char)
    (body : List α) : PageResp α :=
  if status = 403 then PageResp.exn msg403
  else if status = 429 then PageResp.exn msg429
  else if 400 ≤ status then PageResp.exn statusText
  else PageResp.ok body

/-- Ban test of the run loop (pvp_scraper.py line 215): the exception text
contains 403, 429 or Forbidden. -/
def isBanMsg (msg : List Char) : Bool :=
  containsSeq "403".toList msg || containsSeq "429".toList msg ||
    containsSeq "Forbidden".toList msg

/-- Reason a run ended (the distinct exits of PVPScraper.run). -/
inductive StopReason where
  | completed
  | banned
  | tooManyEmpty
  | tooManyErrors
  deriving DecidableEq

/-- Observable outcome of a run: auctions published, requests issued and the
terminating reason. -/
structure RunResult where
  total : ℕ
  requests : ℕ
  reason : StopReason
  deriving DecidableEq

/-- The page loop of PVPScraper.run (pvp_scraper.py lines 168-237) over the
remaining page numbers, the published count, the consecutive-failure counter
and the requests issued so far. max_consecutive_failures is 2 (line 166). -/
def runLoop (α : Type) (resp : ℕ → PageResp α) (pubOk : α → Bool) :
    List ℕ → ℕ → ℕ → ℕ → RunResult
  | [], total, _, reqs => { total := total, requests := reqs, reason := .completed }
  | page :: rest, total, consec, reqs =>
    match resp page with
    | PageResp.ok auctions =>
      if auctions.isEmpty then
        if 2 ≤ consec + 1 then
          { total := total, requests := reqs + 1, reason := .tooManyEmpty }
        else runLoop α resp pubOk rest total (consec + 1) (reqs + 1)
      else
        runLoop α resp pubOk rest (total + (auctions.filter pubOk).length) 0 (reqs + 1)
    | PageResp.exn msg =>
      if isBanMsg msg then
        { total := total, requests := reqs + 1, reason := .banned }
      else if 2 ≤ consec + 1 then
        { total := total, requests := reqs + 1, reason := .tooManyErrors }
      else runLoop α resp pubOk rest total (consec + 1) (reqs + 1)

/-- PVPScraper.run over max_pages pages starting at page 0. -/
def pvpRun (α : Type) (resp : ℕ → PageResp α) (pubOk : α → Bool)
    (max_pages : ℕ) : RunResult :=
  runLoop α resp pubOk (List.range max_pages) 0 0 0

/-- A concrete externally loaded weight configuration whose sum is 0.5,
far outside the 1e-6 tolerance around 1.0. -/
def halfWeights : Weights :=
  { price_discount := 1/10, location_score := 1/10, property_condition := 1/10,
    legal_complexity := 1/10, liquidity_potential := 1/10 }

/-- Concrete record with a positive base price, a city in no pricing tier,
an unrecognized property type, and no surface or stored estimate. -/
def noTierAuction : AuctionData :=
  { base_price := some 100000, city := some "Sassari",
    property_type := some "Castello" }

/-- Primary record carrying only a base price, for concrete match-score
evaluations. -/
def pricePvp (p : ℚ) : PvpAuction := { base_price := some p }

/-- Secondary candidate carrying only a base price. -/
def priceFall (p : ℚ) : FallAuction := { base_price := some p }

/-- Primary record holding a latitude but no longitude. -/
def pvpLatOnly : PvpAuction := { latitude := some 45 }

/-- Candidate carrying both coordinates and a court value. -/
def fallCoords : FallAuction :=
  { latitude := some 41, longitude := some 12, court := some "Tribunale di Roma" }

/-- Primary record with photos, both coordinates and a court. -/
def pvpRich : PvpAuction :=
  { photos := ["p1"], latitude := some 45, longitude := some 9,
    court := some "Tribunale di Milano" }

/-- Candidate with media, url and coordinates. -/
def fallRich : FallAuction :=
  { photos := ["f1"], floor_plans := ["fp"], documents := ["d"],
    url := some "u", latitude := some 41, longitude := some 12 }

/-! ## Bounds of the ranking scores -/

/-- The Python clamp max(0, min(100, x)) lands in [0, 100]. -/
theorem clamp_bounds (x : ℚ) : 0 ≤ max 0 (min 100 x) ∧ max 0 (min 100 x) ≤ 100 :=
  ⟨le_max_left _ _, max_le (by norm_num) (min_le_left _ _)⟩

/-- pyRoundInt either truncates down to the floor or moves up by one, and it
moves up only when the argument exceeds its floor. -/
theorem pyRoundInt_floor_or_succ (x : ℚ) :
    pyRoundInt x = ⌊x⌋ ∨ (pyRoundInt x = ⌊x⌋ + 1 ∧ (⌊x⌋ : ℚ) < x) := by
  unfold pyRoundInt
  simp only
  split_ifs with hA hB hC
  · exact Or.inl rfl
  · exact Or.inr ⟨rfl, by linarith⟩
  · exact Or.inl rfl
  · exact Or.inr ⟨rfl, by linarith⟩

/-- Rounding to two decimals keeps a value of [0, 100] inside [0, 100]. -/
theorem pyRound2_bounds {x : ℚ} (h0 : 0 ≤ x) (h100 : x ≤ 100) :
    0 ≤ pyRound2 x ∧ pyRound2 x ≤ 100 := by
  have hfl : (0:ℤ) ≤ ⌊x * 100⌋ := Int.le_floor.mpr (by push_cast; linarith)
  have hfu : (⌊x * 100⌋ : ℚ) ≤ x * 100 := Int.floor_le _
  have hx100 : x * 100 ≤ 10000 := by linarith
  rcases pyRoundInt_floor_or_succ (x * 100) with h | ⟨h, hlt⟩ <;>
    unfold pyRound2 <;> rw [h] <;> constructor
  · have : (0:ℚ) ≤ (⌊x * 100⌋ : ℚ) := by exact_mod_cast hfl
    positivity
  · have : (⌊x * 100⌋ : ℚ) ≤ 10000 := le_trans hfu hx100
    linarith
  · have : (0:ℚ) ≤ (⌊x * 100⌋ : ℚ) := by exact_mod_cast hfl
    have : (0:ℚ) ≤ (⌊x * 100⌋ : ℚ) + 1 := by linarith
    rw [Int.cast_add, Int.cast_one]
    linarith
  · have hq : (⌊x * 100⌋ : ℚ) < 10000 := lt_of_lt_of_le hlt hx100
    have hz : ⌊x * 100⌋ < 10000 := by exact_mod_cast hq
    have hz1 : ⌊x * 100⌋ + 1 ≤ 10000 := hz
    have : ((⌊x * 100⌋ + 1 : ℤ) : ℚ) ≤ 10000 := by exact_mod_cast hz1
    push_cast at this ⊢
    linarith

/-- The price-discount sub-score lies in [0, 100]. -/
theorem price_discount_score_bounds (d : AuctionData) :
    0 ≤ calculate_price_discount_score d ∧ calculate_price_discount_score d ≤ 100 := by
  unfold calculate_price_discount_score
  simp only
  split_ifs <;> exact ⟨by norm_num, by norm_num⟩

/-- The location sub-score lies in [0, 100]. -/
theorem location_score_bounds (d : AuctionData) :
    0 ≤ calculate_location_score d ∧ calculate_location_score d ≤ 100 := by
  unfold calculate_location_score
  simp only
  split_ifs <;> exact ⟨by norm_num, by norm_num⟩

/-- The property-condition sub-score lies in [0, 100]. -/
theorem condition_score_bounds (d : AuctionData) :
    0 ≤ calculate_property_condition_score d ∧
      calculate_property_condition_score d ≤ 100 := by
  unfold calculate_property_condition_score
  simp only
  split_ifs <;> exact ⟨by norm_num, by norm_num⟩

/-- The legal-complexity sub-score lies in [0, 100]. -/
theorem legal_score_bounds (d : AuctionData) :
    0 ≤ calculate_legal_complexity_score d ∧
      calculate_legal_complexity_score d ≤ 100 := by
  unfold calculate_legal_complexity_score
  simp only
  exact clamp_bounds _

/-- The liquidity type base score lies in [40, 90]. -/
theorem liquidity_type_scores_bounds (pt : String) :
    40 ≤ liquidity_type_scores pt ∧ liquidity_type_scores pt ≤ 90 := by
  unfold liquidity_type_scores
  split_ifs <;> norm_num

/-- The liquidity sub-score lies in [0, 100]. -/
theorem liquidity_score_bounds (d : AuctionData) :
    0 ≤ calculate_liquidity_score d ∧ calculate_liquidity_score d ≤ 100 := by
  have hb := liquidity_type_scores_bounds (d.property_type.getD "Appartamento")
  unfold calculate_liquidity_score
  simp only
  constructor
  · apply le_min (by norm_num)
    split_ifs <;> linarith [hb.1]
  · exact min_le_left _ _

/-- C1: for every input record and every weight configuration, the overall
convenience score returned by calculate_ai_score lies in [0, 100], and each
of the five named breakdown sub-scores lies in [0, 100]. -/
theorem C1_score_and_breakdown_in_range (w : Weights) (d : AuctionData) :
    (0 ≤ (calculate_ai_score w d).1 ∧ (calculate_ai_score w d).1 ≤ 100) ∧
    (0 ≤ (calculate_ai_score w d).2.price_discount ∧
      (calculate_ai_score w d).2.price_discount ≤ 100) ∧
    (0 ≤ (calculate_ai_score w d).2.location_score ∧
      (calculate_ai_score w d).2.location_score ≤ 100) ∧
    (0 ≤ (calculate_ai_score w d).2.property_condition ∧
      (calculate_ai_score w d).2.property_condition ≤ 100) ∧
    (0 ≤ (calculate_ai_score w d).2.legal_complexity ∧
      (calculate_ai_score w d).2.legal_complexity ≤ 100) ∧
    (0 ≤ (calculate_ai_score w d).2.liquidity_potential ∧
      (calculate_ai_score w d).2.liquidity_potential ≤ 100) := by
  have hov := clamp_bounds
    (calculate_price_discount_score d * w.price_discount +
     calculate_location_score d * w.location_score +
     calculate_property_condition_score d * w.property_condition +
     calculate_legal_complexity_score d * w.legal_complexity +
     calculate_liquidity_score d * w.liquidity_potential)
  have h1 := price_discount_score_bounds d
  have h2 := location_score_bounds d
  have h3 := condition_score_bounds d
  have h4 := legal_score_bounds d
  have h5 := liquidity_score_bounds d
  unfold calculate_ai_score
  simp only
  exact ⟨pyRound2_bounds hov.1 hov.2, pyRound2_bounds h1.1 h1.2,
    pyRound2_bounds h2.1 h2.2, pyRound2_bounds h3.1 h3.2,
    pyRound2_bounds h4.1 h4.2, pyRound2_bounds h5.1 h5.2⟩

/-- C2 fails on the code: with weights summing to 0.5, a deviation far above
the 1e-6 tolerance, calculate_ai_score still produces a score (33 with the
full breakdown on the empty record) instead of rejecting the configuration. -/
theorem C2_counterexample :
    1/1000000 < |weightSum halfWeights - 1| ∧
    calculate_ai_score halfWeights {} =
      (33, { price_discount := 50, location_score := 50, property_condition := 60,
              legal_complexity := 70, liquidity_potential := 100 }) := by
  constructor
  · rw [show weightSum halfWeights - 1 = -(1/2) by norm_num [weightSum, halfWeights], abs_neg, abs_of_pos (by norm_num)]
    norm_num
  · have hp : calculate_price_discount_score {} = 50 := rfl
    have hl : calculate_location_score {} = 50 := rfl
    have hc : calculate_property_condition_score {} = 60 := rfl
    have hg : calculate_legal_complexity_score {} = 70 := rfl
    have hq : calculate_liquidity_score {} = 100 := by
      norm_num [calculate_liquidity_score, liquidity_type_scores]
    unfold calculate_ai_score
    simp only [hp, hl, hc, hg, hq]
    norm_num [pyRound2, pyRoundInt, halfWeights]

/-- C2 amended: the ranking engine performs no validation of the weight sum;
even when the externally loaded weights deviate from 1.0 by more than 1e-6
it does not reject the configuration and still produces a score, clamped to
[0, 100]. -/
theorem C2_no_weight_validation (w : Weights) (d : AuctionData)
    (h : 1/1000000 < |weightSum w - 1|) :
    0 ≤ (calculate_ai_score w d).1 ∧ (calculate_ai_score w d).1 ≤ 100 := by
  have hov := clamp_bounds
    (calculate_price_discount_score d * w.price_discount +
     calculate_location_score d * w.location_score +
     calculate_property_condition_score d * w.property_condition +
     calculate_legal_complexity_score d * w.legal_complexity +
     calculate_liquidity_score d * w.liquidity_potential)
  unfold calculate_ai_score
  simp only
  exact pyRound2_bounds hov.1 hov.2

/-- Weight configuration summing to one half exercises
C2_no_weight_validation. -/
theorem C2_no_weight_validation_witness :
    1/1000000 < |weightSum halfWeights - 1| ∧
    (0 ≤ (calculate_ai_score halfWeights {}).1 ∧
      (calculate_ai_score halfWeights {}).1 ≤ 100) :=
  ⟨by rw [show weightSum halfWeights - 1 = -(1/2) by norm_num [weightSum, halfWeights], abs_neg, abs_of_pos (by norm_num)]; norm_num,
    C2_no_weight_validation halfWeights {}
      (by rw [show weightSum halfWeights - 1 = -(1/2) by norm_num [weightSum, halfWeights], abs_neg, abs_of_pos (by norm_num)]; norm_num)⟩

/-- C10: with no usable surface, no tier city, an unrecognized property type
and no stored estimate, estimate_market_value substitutes the default
surface 80, price 1500 per sqm and multiplier 1.0, so
calculate_price_discount_score computes the discount against the fabricated
estimate 80 * 1500 * 1.0 = 120000 rather than returning the neutral 50. -/
theorem C10_fabricated_estimate (d : AuctionData) (bp : ℚ)
    (hbp : d.base_price = some bp) (hpos : 0 < bp)
    (hsurf : d.surface_sqm = none)
    (hcity1 : d.city.getD "" ∉ tier_1_cities)
    (hcity2 : d.city.getD "" ∉ tier_2_cities)
    (hpt : d.property_type.getD "Appartamento" ∉
      (["Appartamento", "Villa", "Attico", "Locale Commerciale", "Ufficio",
        "Box", "Terreno", "Rustico"] : List String))
    (hev : d.estimated_value = none) :
    estimate_market_value d = 120000 ∧
    calculate_price_discount_score d =
      max 0 (min 100 ((120000 - bp) / 120000 * 200)) := by
  simp only [List.mem_cons, List.mem_singleton, not_or] at hpt
  obtain ⟨h1, h2, h3, h4, h5, h6, h7, h8, -⟩ := hpt
  have hmul : type_multipliers (d.property_type.getD "Appartamento") = 1 := by
    unfold type_multipliers
    rw [if_neg h1, if_neg h2, if_neg h3, if_neg h4, if_neg h5, if_neg h6,
      if_neg h7, if_neg h8]
  have hest : estimate_market_value d = 120000 := by
    unfold estimate_market_value
    simp only [hsurf, Option.getD_none, if_neg hcity1, if_neg hcity2, hmul]
    norm_num
  refine ⟨hest, ?_⟩
  unfold calculate_price_discount_score
  simp only [hbp, Option.getD_some, hev, hest]
  rw [if_neg (by linarith), if_neg (by norm_num)]

/-- Record with a positive base price and no surface, tier city, known type
or stored estimate, exercising C10_fabricated_estimate: the discount is
computed against 120000 and the sub-score is 100/3, not the neutral 50. -/
theorem C10_fabricated_estimate_witness :
    estimate_market_value noTierAuction = 120000 ∧
    calculate_price_discount_score noTierAuction =
      max 0 (min 100 ((120000 - 100000) / 120000 * 200)) :=
  C10_fabricated_estimate noTierAuction
    100000 rfl (by norm_num) rfl (by decide) (by decide) (by decide) rfl

/-- Helper for the rate-limiter guarantee: starting from any state, every
recorded request time of a domain is at least the minimum interval after the
last recorded time the state held for it when the call ran. -/
theorem rlRun_chain (delay : ℚ) (events : List WaitCall) :
    ∀ st : RateLimiterState,
      (∀ e ∈ events, 0 ≤ e.pre ∧ 0 ≤ e.post) →
      ∀ d, List.Chain (fun a b => a + delay / 1000 ≤ b)
        (st.lastRequestTime d) (domainTimes d (rlRun delay st events)) := by
  induction events with
  | nil => intro st _ d; simp [rlRun, domainTimes]
  | cons e es ih =>
    intro st hpos d
    have hepost : 0 ≤ e.post := (hpos e (List.mem_cons_self e es)).2
    have hrest : ∀ x ∈ es, 0 ≤ x.pre ∧ 0 ≤ x.post := fun x hx => hpos x (List.mem_cons_of_mem e hx)
    simp only [rlRun, domainTimes, List.filter]
    by_cases hd : e.domain = d
    · subst hd
      simp only [decide_True, List.map_cons]
      apply List.Chain.cons
      · unfold rlWait
        simp only
        split_ifs with hs
        · have heq : st.clock + e.pre + (delay / 1000 - (st.clock + e.pre - st.lastRequestTime e.domain)) = st.lastRequestTime e.domain + delay / 1000 := by ring
          rw [heq]
          linarith [hepost]
        · push_neg at hs
          linarith [hepost]
      · have h2 := ih (rlWait delay st e.domain e.pre e.post) hrest e.domain
        have hlast : (rlWait delay st e.domain e.pre e.post).lastRequestTime e.domain
            = (rlWait delay st e.domain e.pre e.post).clock := by
          unfold rlWait; simp
        rw [hlast] at h2
        exact h2
    · simp only [hd, decide_False]
      have h2 := ih (rlWait delay st e.domain e.pre e.post) hrest d
      have hlast : (rlWait delay st e.domain e.pre e.post).lastRequestTime d
          = st.lastRequestTime d := by
        unfold rlWait
        simp only
        rw [if_neg (fun hc => hd hc.symm)]
      rw [hlast] at h2
      exact h2

/-- C9: across any sequence of sequential wait calls with nonnegative
real-time drifts, the recorded request times of any one domain are pairwise
at least delay_ms/1000 apart: each call sleeps until the minimum interval
has elapsed since the previously recorded request time of its domain. -/
theorem C9_rate_limiter_min_interval (delay_ms : ℚ) (events : List WaitCall)
    (hpos : ∀ e ∈ events, 0 ≤ e.pre ∧ 0 ≤ e.post) (d : String) :
    List.Chain' (fun a b => a + delay_ms / 1000 ≤ b)
      (domainTimes d (rlRun delay_ms initLimiter events)) :=
  List.Chain'.tail
    (show List.Chain' _ (initLimiter.lastRequestTime d :: _) from
      rlRun_chain delay_ms events initLimiter hpos d)

/-- Two back-to-back calls for one domain under a 1000 ms delay exercise
C9_rate_limiter_min_interval. -/
theorem C9_rate_limiter_min_interval_witness :
    List.Chain' (fun a b => a + 1000 / 1000 ≤ b)
      (domainTimes "pvp"
        (rlRun 1000 initLimiter
          [{ domain := "pvp", pre := 0, post := 0 },
           { domain := "pvp", pre := 1, post := 0 }])) :=
  C9_rate_limiter_min_interval 1000
    [{ domain := "pvp", pre := 0, post := 0 },
     { domain := "pvp", pre := 1, post := 0 }]
    (by decide) "pvp"

/-- C8: fetch_api_data turns an HTTP 403 into the fixed 403 exception text,
and a run whose requests receive 403 terminates with reason banned after
exactly one request: no retry, no further request, nothing published; in
particular a source answering 403 to every request (three consecutive 403s
included) leaves the run terminated as banned with zero further requests. -/
theorem C8_banned_on_403 (α : Type) (resp : ℕ → PageResp α) (pubOk : α → Bool)
    (max_pages : ℕ) (hn : 1 ≤ max_pages)
    (h403 : ∀ k, resp k = PageResp.exn msg403) :
    (∀ (stext : List Char) (body : List α),
        fetch_api_data α 403 stext body = PageResp.exn msg403) ∧
    pvpRun α resp pubOk max_pages =
      { total := 0, requests := 1, reason := StopReason.banned } := by
  constructor
  · intro stext body
    unfold fetch_api_data
    simp
  · obtain ⟨m, rfl⟩ : ∃ m, max_pages = m + 1 := by
      cases max_pages with
      | zero => omega
      | succ m => exact ⟨m, rfl⟩
    unfold pvpRun
    rw [List.range_succ_eq_map]
    simp only [runLoop, h403 0]
    rw [if_pos (by decide : isBanMsg msg403 = true)]

/-- A three-page run against a source answering 403 everywhere exercises
C8_banned_on_403: one request issued, reason banned, nothing published. -/
theorem C8_banned_on_403_witness :
    (∀ (stext : List Char) (body : List Unit),
        fetch_api_data Unit 403 stext body = PageResp.exn msg403) ∧
    pvpRun Unit (fun _ => PageResp.exn msg403) (fun _ => true) 3 =
      { total := 0, requests := 1, reason := StopReason.banned } :=
  C8_banned_on_403 Unit (fun _ => PageResp.exn msg403) (fun _ => true) 3
    (by decide) (fun _ => rfl)

/-- Characterization of the selection loop: the final best slot is filled
exactly when it started filled or some candidate reaches the threshold and
strictly beats the starting best score. -/
theorem fbm_aux_isSome_iff (score : PvpAuction → ℚ) (t : ℚ) :
    ∀ (ps : List PvpAuction) (best : Option PvpAuction) (bs : ℚ),
      (find_best_match_aux score t ps best bs).1.isSome = true ↔
        best.isSome = true ∨ ∃ p ∈ ps, t ≤ score p ∧ bs < score p := by
  intro ps
  induction ps with
  | nil => intro best bs; simp [find_best_match_aux]
  | cons p rest ih =>
    intro best bs
    unfold find_best_match_aux
    simp only
    by_cases h : bs < score p ∧ t ≤ score p
    · rw [if_pos h, ih]
      simp only [Option.isSome_some, List.mem_cons, true_or, true_iff]
      exact Or.inr ⟨p, Or.inl rfl, h.2, h.1⟩
    · rw [if_neg h, ih]
      simp only [List.mem_cons]
      constructor
      · rintro (hb | ⟨q, hq, hts, hbs⟩)
        · exact Or.inl hb
        · exact Or.inr ⟨q, Or.inr hq, hts, hbs⟩
      · rintro (hb | ⟨q, hq | hq, hts, hbs⟩)
        · exact Or.inl hb
        · subst hq
          exact absurd ⟨hbs, hts⟩ h
        · exact Or.inr ⟨q, hq, hts, hbs⟩

/-- find_best_match reports a match exactly when some primary record scores
at least the threshold and above zero. -/
theorem find_best_match_isSome_iff (ratio : String → String → ℚ)
    (pdate : String → Option ℚ) (fall : FallAuction) (pvps : List PvpAuction)
    (t : ℚ) :
    (find_best_match ratio pdate fall pvps t).isSome = true ↔
      ∃ p ∈ pvps, t ≤ calculate_match_score ratio pdate p fall ∧
        0 < calculate_match_score ratio pdate p fall := by
  have hkey : (find_best_match ratio pdate fall pvps t).isSome
      = (find_best_match_aux
          (fun p => calculate_match_score ratio pdate p fall) t pvps none 0).1.isSome := by
    unfold find_best_match
    rcases haux : find_best_match_aux
        (fun p => calculate_match_score ratio pdate p fall) t pvps none 0 with ⟨b, bs⟩
    cases b <;> simp
  rw [hkey, fbm_aux_isSome_iff]
  simp

/-- C4: matching is threshold-monotonic; for fixed candidate and primary
sets and any similarity and date oracles, lowering the acceptance threshold
never decreases the number of candidates for which find_best_match returns
a match. -/
theorem C4_threshold_monotonic (ratio : String → String → ℚ)
    (pdate : String → Option ℚ) (falls : List FallAuction)
    (pvps : List PvpAuction) (t t' : ℚ) (h : t' ≤ t) :
    matchedCount ratio pdate falls pvps t ≤ matchedCount ratio pdate falls pvps t' := by
  unfold matchedCount
  apply List.countP_mono_left
  intro fall _ hsome
  obtain ⟨p, hp, hts, hpos⟩ :=
    (find_best_match_isSome_iff ratio pdate fall pvps t).mp hsome
  exact (find_best_match_isSome_iff ratio pdate fall pvps t').mpr
    ⟨p, hp, le_trans h hts, hpos⟩

/-- Thresholds 0.7 and 0.5 on a concrete one-candidate, one-primary instance
exercise C4_threshold_monotonic. -/
theorem C4_threshold_monotonic_witness :
    matchedCount (fun _ _ => 0) (fun _ => none) [{}] [{}] (7/10) ≤
      matchedCount (fun _ _ => 0) (fun _ => none) [{}] [{}] (1/2) :=
  C4_threshold_monotonic (fun _ _ => 0) (fun _ => none) [{}] [{}] (7/10) (1/2)
    (by norm_num)

/-- C5 amended: the base-price component of calculate_match_score is
binary, not proportional: with both prices present and positive it adds the
full weight 0.20 exactly when the relative difference against the larger
price is within 5 percent, and adds nothing otherwise. -/
theorem C5_price_component_binary (ratio : String → String → ℚ)
    (pdate : String → Option ℚ) (pvp : PvpAuction) (fall : FallAuction)
    (p1 p2 : ℚ) (h1 : pvp.base_price = some p1) (h2 : fall.base_price = some p2)
    (hp1 : 0 < p1) (hp2 : 0 < p2) :
    (|p1 - p2| / max p1 p2 * 100 ≤ 5 →
      calculate_match_score ratio pdate pvp fall =
        match_score_base ratio pdate pvp fall + 1/5) ∧
    (5 < |p1 - p2| / max p1 p2 * 100 →
      calculate_match_score ratio pdate pvp fall =
        match_score_base ratio pdate pvp fall) := by
  have hpm : prices_match pvp.base_price fall.base_price 5
      = decide (|p1 - p2| / max p1 p2 * 100 ≤ 5) := by
    rw [h1, h2]
    unfold prices_match
    show (if p1 = 0 ∨ p2 = 0 then false
      else decide (|p1 - p2| / max p1 p2 * 100 ≤ 5)) = _
    rw [if_neg]
    push_neg
    exact ⟨ne_of_gt hp1, ne_of_gt hp2⟩
  constructor
  · intro hband
    unfold calculate_match_score
    rw [hpm, if_pos (by simpa using hband)]
  · intro hout
    unfold calculate_match_score
    rw [hpm, if_neg (by simpa using not_le.mpr hout), add_zero]

/-- Prices 100000 and 96000 (4 percent apart) exercise
C5_price_component_binary: the component contributes the full 0.20. -/
theorem C5_price_component_binary_witness :
    (|(100000:ℚ) - 96000| / max 100000 96000 * 100 ≤ 5 →
      calculate_match_score (fun _ _ => 0) (fun _ => none)
          (pricePvp 100000) (priceFall 96000) =
        match_score_base (fun _ _ => 0) (fun _ => none)
          (pricePvp 100000) (priceFall 96000) + 1/5) ∧
    (5 < |(100000:ℚ) - 96000| / max 100000 96000 * 100 →
      calculate_match_score (fun _ _ => 0) (fun _ => none)
          (pricePvp 100000) (priceFall 96000) =
        match_score_base (fun _ _ => 0) (fun _ => none)
          (pricePvp 100000) (priceFall 96000)) :=
  C5_price_component_binary (fun _ _ => 0) (fun _ => none)
    (pricePvp 100000) (priceFall 96000) 100000 96000 rfl rfl
    (by norm_num) (by norm_num)

/-- C5 fails on the code: prices differing by 4 percent (inside the 5 percent
band) receive the identical full 0.20 credit as exactly equal prices, so the
credit is not proportional to closeness within the band. -/
theorem C5_counterexample :
    (|(100000:ℚ) - 96000| / max 100000 96000 * 100 ≤ 5) ∧ ((100000:ℚ) ≠ 96000) ∧
    calculate_match_score (fun _ _ => 0) (fun _ => none)
      (pricePvp 100000) (priceFall 96000) = 1/5 ∧
    calculate_match_score (fun _ _ => 0) (fun _ => none)
      (pricePvp 100000) (priceFall 100000) = 1/5 := by
  refine ⟨by rw [show max (100000:ℚ) 96000 = 100000 from by norm_num]; norm_num,
    by norm_num, ?_, ?_⟩ <;>
    norm_num [pricePvp, priceFall, calculate_match_score, match_score_base,
      simRatioWith, dates_match, prices_match, normalize_string, pyWords,
      pyWordsF, pyLower]

/-- C3 amended: the merge preserves every primary field except that the
enrichment metadata block (enriched_from_fallcoaste, enrichment_score,
fallcoaste_url, fallcoaste_details) is always written and that both
coordinates are overwritten together whenever either primary coordinate is
falsy and the candidate carries both; photos, floor plans and documents are
the only other fields ever filled, each exactly when the primary entry is
empty and then with the candidate value; every remaining field, populated or
empty, keeps its primary value and is never filled from the candidate. -/
theorem C3_enrich_frame (pvp : PvpAuction) (fall : FallAuction) (s : ℚ) :
    ((enrich_pvp_auction pvp fall s).address = pvp.address ∧
     (enrich_pvp_auction pvp fall s).city = pvp.city ∧
     (enrich_pvp_auction pvp fall s).court = pvp.court ∧
     (enrich_pvp_auction pvp fall s).auction_date = pvp.auction_date ∧
     (enrich_pvp_auction pvp fall s).base_price = pvp.base_price ∧
     (enrich_pvp_auction pvp fall s).external_id = pvp.external_id ∧
     (enrich_pvp_auction pvp fall s).other = pvp.other) ∧
    ((pvp.photos ≠ [] → (enrich_pvp_auction pvp fall s).photos = pvp.photos) ∧
     (pvp.photos = [] → (enrich_pvp_auction pvp fall s).photos = fall.photos)) ∧
    ((pvp.floor_plans ≠ [] →
        (enrich_pvp_auction pvp fall s).floor_plans = pvp.floor_plans) ∧
     (pvp.floor_plans = [] →
        (enrich_pvp_auction pvp fall s).floor_plans = fall.floor_plans)) ∧
    ((pvp.documents ≠ [] →
        (enrich_pvp_auction pvp fall s).documents = pvp.documents) ∧
     (pvp.documents = [] →
        (enrich_pvp_auction pvp fall s).documents = fall.documents)) ∧
    (truthyNum pvp.latitude = true → truthyNum pvp.longitude = true →
      (enrich_pvp_auction pvp fall s).latitude = pvp.latitude ∧
      (enrich_pvp_auction pvp fall s).longitude = pvp.longitude) ∧
    ((enrich_pvp_auction pvp fall s).enriched_from_fallcoaste = some true ∧
     (enrich_pvp_auction pvp fall s).enrichment_score = some s ∧
     (enrich_pvp_auction pvp fall s).fallcoaste_url = fall.url ∧
     (enrich_pvp_auction pvp fall s).fallcoaste_details =
       some (fall.procedura_n, fall.tipo_procedura, fall.referente_procedura,
         fall.termine_presentazione, fall.termine_visita, fall.cauzione_minima,
         fall.annotazioni)) := by
  unfold enrich_pvp_auction
  simp only
  refine ⟨⟨trivial, trivial, trivial, trivial, trivial, trivial, trivial⟩,
    ⟨?_, ?_⟩, ⟨?_, ?_⟩, ⟨?_, ?_⟩, ?_, ⟨trivial, trivial, trivial, trivial⟩⟩
  · intro hne
    rw [if_neg]
    simp [List.isEmpty_iff, hne]
  · intro hemp
    by_cases hf : fall.photos.isEmpty
    · rw [if_neg (by simp [hf]), hemp]
      rw [List.isEmpty_iff] at hf
      exact hf.symm
    · rw [if_pos ⟨by simp [hemp], hf⟩]
  · intro hne
    rw [if_neg]
    simp [List.isEmpty_iff, hne]
  · intro hemp
    by_cases hf : fall.floor_plans.isEmpty
    · rw [if_neg (by simp [hf]), hemp]
      rw [List.isEmpty_iff] at hf
      exact hf.symm
    · rw [if_pos ⟨by simp [hemp], hf⟩]
  · intro hne
    rw [if_neg]
    simp [List.isEmpty_iff, hne]
  · intro hemp
    by_cases hf : fall.documents.isEmpty
    · rw [if_neg (by simp [hf]), hemp]
      rw [List.isEmpty_iff] at hf
      exact hf.symm
    · rw [if_pos ⟨by simp [hemp], hf⟩]
  · intro hlat hlng
    rw [if_neg (fun hc => hc.1.elim (fun hx => hx hlat) (fun hx => hx hlng))]
    exact ⟨rfl, rfl⟩

/-- Enrichment on records with populated media and coordinates exercises
C3_enrich_frame: populated photos and coordinates survive, unknown keys are
untouched, the confidence is attached. -/
theorem C3_enrich_frame_witness :
    (enrich_pvp_auction pvpRich fallRich 1).photos = pvpRich.photos ∧
    ((enrich_pvp_auction pvpRich fallRich 1).latitude = pvpRich.latitude ∧
      (enrich_pvp_auction pvpRich fallRich 1).longitude = pvpRich.longitude) ∧
    (enrich_pvp_auction pvpRich fallRich 1).other = pvpRich.other ∧
    (enrich_pvp_auction pvpRich fallRich 1).enrichment_score = some 1 :=
  ⟨(C3_enrich_frame pvpRich fallRich 1).2.1.1 (by decide),
   (C3_enrich_frame pvpRich fallRich 1).2.2.2.2.1 (by decide) (by decide),
   (C3_enrich_frame pvpRich fallRich 1).1.2.2.2.2.2.2,
   (C3_enrich_frame pvpRich fallRich 1).2.2.2.2.2.2.1⟩

/-- C3 fails on the code: a populated primary latitude is overwritten when
the longitude is missing and the candidate has both coordinates, and an
empty primary court is not filled although the candidate carries one. -/
theorem C3_counterexample :
    pvpLatOnly.latitude = some 45 ∧ truthyNum pvpLatOnly.latitude = true ∧
    (enrich_pvp_auction pvpLatOnly fallCoords 1).latitude = some 41 ∧
    pvpLatOnly.court = none ∧ fallCoords.court = some "Tribunale di Roma" ∧
    (enrich_pvp_auction pvpLatOnly fallCoords 1).court = none := by
  refine ⟨rfl, by decide, ?_, rfl, rfl, rfl⟩
  rfl

theorem all_digit_mem {l : List Char} (h : l.all Char.isDigit = true) {c : Char}
    (hc : c ∈ l) : c.isDigit = true := List.all_eq_true.mp h c hc

theorem takeWhile_digits_append (l t : List Char) (hl : l.all Char.isDigit = true) :
    (l ++ t).takeWhile Char.isDigit = l ++ t.takeWhile Char.isDigit := by
  induction l with
  | nil => simp
  | cons c cs ih =>
    simp only [List.all_cons, Bool.and_eq_true] at hl
    simp [List.takeWhile_cons, hl.1, ih hl.2]

theorem dropWhile_digits_append (l t : List Char) (hl : l.all Char.isDigit = true) :
    (l ++ t).dropWhile Char.isDigit = t.dropWhile Char.isDigit := by
  induction l with
  | nil => simp
  | cons c cs ih =>
    simp only [List.all_cons, Bool.and_eq_true] at hl
    simp [List.dropWhile_cons, hl.1, ih hl.2]

theorem filter_dot_of_digits (l : List Char) (h : l.all Char.isDigit = true) :
    l.filter (fun c => c ≠ '.') = l := by
  rw [List.filter_eq_self]
  intro a ha
  have had := all_digit_mem h ha
  simp only [ne_eq, decide_not, Bool.not_eq_true']
  rw [decide_eq_false_iff_not]
  intro hq
  subst hq
  exact absurd had (by decide)

theorem map_comma_of_digits (l : List Char) (h : l.all Char.isDigit = true) :
    l.map (fun c => if c = ',' then '.' else c) = l := by
  induction l with
  | nil => rfl
  | cons c cs ih =>
    simp only [List.all_cons, Bool.and_eq_true] at h
    have : c ≠ ',' := by
      intro hq
      subst hq
      exact absurd h.1 (by decide)
    simp [List.map_cons, if_neg this, ih h.2]

theorem mem_groupsJoin {gs : List (List Char)} {c : Char}
    (hc : c ∈ gs.foldr (fun g acc => ('.' :: g) ++ acc) []) :
    c = '.' ∨ ∃ g ∈ gs, c ∈ g := by
  induction gs with
  | nil => simp at hc
  | cons g rest ih =>
    simp only [List.foldr_cons, List.cons_append, List.mem_cons, List.mem_append] at hc
    rcases hc with hc | hc | hc
    · exact Or.inl hc
    · exact Or.inr ⟨g, List.mem_cons_self g rest, hc⟩
    · rcases ih hc with h1 | ⟨g2, hg2, hcg2⟩
      · exact Or.inl h1
      · exact Or.inr ⟨g2, List.mem_cons_of_mem g hg2, hcg2⟩

theorem mem_mkPriceChars_class {g0 : List Char} {gs : List (List Char)}
    {ds : List Char} (hg0d : g0.all Char.isDigit = true)
    (hgs : ∀ g ∈ gs, g.length = 3 ∧ g.all Char.isDigit = true)
    (hdsd : ds.all Char.isDigit = true) {c : Char}
    (hc : c ∈ mkPriceChars g0 gs ds) :
    c.isDigit = true ∨ c = '.' ∨ c = ',' := by
  unfold mkPriceChars at hc
  rcases List.mem_append.mp hc with hc | hc
  · rcases List.mem_append.mp hc with hc | hc
    · exact Or.inl (all_digit_mem hg0d hc)
    · rcases mem_groupsJoin hc with h | ⟨g, hg, hcg⟩
      · exact Or.inr (Or.inl h)
      · exact Or.inl (all_digit_mem (hgs g hg).2 hcg)
  · by_cases hemp : ds.isEmpty
    · rw [if_pos hemp] at hc
      simp at hc
    · rw [if_neg hemp] at hc
      rcases List.mem_cons.mp hc with hc | hc
      · exact Or.inr (Or.inr hc)
      · exact Or.inl (all_digit_mem hdsd hc)

theorem no_E_in_price {g0 : List Char} {gs : List (List Char)} {ds : List Char}
    (hg0d : g0.all Char.isDigit = true)
    (hgs : ∀ g ∈ gs, g.length = 3 ∧ g.all Char.isDigit = true)
    (hdsd : ds.all Char.isDigit = true) : 'E' ∉ mkPriceChars g0 gs ds := by
  intro hmem
  rcases mem_mkPriceChars_class hg0d hgs hdsd hmem with h | h | h
  · exact absurd h (by decide)
  · exact absurd h (by decide)
  · exact absurd h (by decide)

theorem pyRemoveSeqF_eur_id (n : ℕ) :
    ∀ l : List Char, 'E' ∉ l → pyRemoveSeqF "EUR".toList n l = l := by
  induction n with
  | zero => intro l _; rfl
  | succ n ih =>
    intro l hE
    cases l with
    | nil => rfl
    | cons c rest =>
      have hcE : c ≠ 'E' := fun hq => hE (hq ▸ List.mem_cons_self c rest)
      have hnp : ¬ (List.isPrefixOf "EUR".toList (c :: rest) = true) := by
        intro hp
        simp only [show "EUR".toList = ['E', 'U', 'R'] from rfl,
          List.isPrefixOf, Bool.and_eq_true, beq_iff_eq] at hp
        exact hcE hp.1.symm
      unfold pyRemoveSeqF
      rw [if_neg (fun hand => hnp hand.2)]
      have : 'E' ∉ rest := fun hq => hE (List.mem_cons_of_mem c hq)
      rw [ih rest this]

theorem filter_euro_of_price {g0 : List Char} {gs : List (List Char)}
    {ds : List Char} (hg0d : g0.all Char.isDigit = true)
    (hgs : ∀ g ∈ gs, g.length = 3 ∧ g.all Char.isDigit = true)
    (hdsd : ds.all Char.isDigit = true) :
    (mkPriceChars g0 gs ds).filter (fun c => c ≠ '€') = mkPriceChars g0 gs ds := by
  rw [List.filter_eq_self]
  intro a ha
  simp only [ne_eq, decide_not, Bool.not_eq_true']
  rw [decide_eq_false_iff_not]
  intro hq
  subst hq
  rcases mem_mkPriceChars_class hg0d hgs hdsd ha with h | h | h
  · exact absurd h (by decide)
  · exact absurd h (by decide)
  · exact absurd h (by decide)

theorem groups_transform (gs : List (List Char))
    (hgs : ∀ g ∈ gs, g.length = 3 ∧ g.all Char.isDigit = true) :
    ((gs.foldr (fun g acc => ('.' :: g) ++ acc) []).filter
        (fun c => c ≠ '.')).map (fun c => if c = ',' then '.' else c)
      = gs.foldr (· ++ ·) [] := by
  induction gs with
  | nil => rfl
  | cons g rest ih =>
    have hg := hgs g (List.mem_cons_self g rest)
    have hrest : ∀ x ∈ rest, x.length = 3 ∧ x.all Char.isDigit = true :=
      fun x hx => hgs x (List.mem_cons_of_mem g hx)
    simp only [List.foldr_cons, List.cons_append, List.filter_cons]
    rw [show (decide ¬('.' = '.')) = false by decide]
    simp only [Bool.false_eq_true, if_false, List.filter_append, List.map_append]
    rw [filter_dot_of_digits g hg.2, map_comma_of_digits g hg.2]
    exact congrArg (g ++ ·) (ih hrest)

theorem price_transform (g0 : List Char) (gs : List (List Char)) (ds : List Char)
    (hg0d : g0.all Char.isDigit = true)
    (hgs : ∀ g ∈ gs, g.length = 3 ∧ g.all Char.isDigit = true)
    (hdsd : ds.all Char.isDigit = true) :
    ((mkPriceChars g0 gs ds).filter (fun c => c ≠ '.')).map
        (fun c => if c = ',' then '.' else c)
      = (g0 ++ gs.foldr (· ++ ·) []) ++ (if ds.isEmpty then [] else '.' :: ds) := by
  unfold mkPriceChars
  rw [List.filter_append, List.filter_append, List.map_append, List.map_append]
  rw [filter_dot_of_digits g0 hg0d, map_comma_of_digits g0 hg0d,
    groups_transform gs hgs]
  congr 1
  by_cases hemp : ds.isEmpty
  · rw [if_pos hemp, if_pos hemp]
    rfl
  · rw [if_neg hemp, if_neg hemp, List.filter_cons]
    rw [show (decide ¬(',' = '.')) = true by decide]
    simp only [if_true]
    rw [filter_dot_of_digits ds hdsd, List.map_cons]
    rw [show (if ',' = ',' then '.' else ',') = '.' from rfl,
      map_comma_of_digits ds hdsd]

theorem findNumMatch_digits (AD ds : List Char)
    (hADd : AD.all Char.isDigit = true) (hne : AD ≠ [])
    (hdsd : ds.all Char.isDigit = true) (hlen : ds.length ≤ 2) :
    findNumMatch (AD ++ (if ds.isEmpty then [] else '.' :: ds)) = some (AD, ds) := by
  cases hAD : AD with
  | nil => exact absurd hAD hne
  | cons c0 r0 =>
    have hc0 : c0.isDigit = true := all_digit_mem (hAD ▸ hADd) (List.mem_cons_self c0 r0)
    rw [List.cons_append]
    unfold findNumMatch
    rw [if_pos hc0, ← List.cons_append, ← hAD]
    rw [takeWhile_digits_append AD _ hADd, dropWhile_digits_append AD _ hADd]
    match ds, hlen with
    | [], _ =>
      simp
    | [d1], _ =>
      have hd1 : d1.isDigit = true := all_digit_mem hdsd (List.mem_cons_self d1 [])
      simp [hd1, show List.takeWhile Char.isDigit ['.', d1] = [] from rfl,
        show List.dropWhile Char.isDigit ['.', d1] = ['.', d1] from rfl]
    | [d1, d2], _ =>
      have hd1 : d1.isDigit = true := all_digit_mem hdsd (List.mem_cons_self d1 [d2])
      have hd2 : d2.isDigit = true :=
        all_digit_mem hdsd (List.mem_cons_of_mem d1 (List.mem_cons_self d2 []))
      simp [hd1, hd2, show List.takeWhile Char.isDigit ['.', d1, d2] = [] from rfl,
        show List.dropWhile Char.isDigit ['.', d1, d2] = ['.', d1, d2] from rfl]

theorem groups_concat_all (gs : List (List Char))
    (hgs : ∀ g ∈ gs, g.length = 3 ∧ g.all Char.isDigit = true) :
    (gs.foldr (· ++ ·) []).all Char.isDigit = true := by
  induction gs with
  | nil => rfl
  | cons g rest ih =>
    simp only [List.foldr_cons, List.all_append, Bool.and_eq_true]
    exact ⟨(hgs g (List.mem_cons_self g rest)).2,
      ih fun x hx => hgs x (List.mem_cons_of_mem g hx)⟩

theorem pyRemoveSeq_eur_id (l : List Char) (hE : 'E' ∉ l) :
    pyRemoveSeq "EUR".toList l = l := pyRemoveSeqF_eur_id l.length l hE

/-- Main correctness of normalize_price on the valid price grammar: the
currency strips are identities, the dot filter removes exactly the
thousands separators, the comma becomes the decimal dot, and the regex
match reads back the full digit strings. -/
theorem normalize_price_correct (g0 : List Char) (gs : List (List Char))
    (ds : List Char) (hg0ne : g0 ≠ []) (hg0d : g0.all Char.isDigit = true)
    (hgs : ∀ g ∈ gs, g.length = 3 ∧ g.all Char.isDigit = true)
    (hds : ds.length ≤ 2) (hdsd : ds.all Char.isDigit = true) :
    normalize_price (mkPriceStr g0 gs ds) = priceValue g0 gs ds := by
  have hADall : (g0 ++ gs.foldr (· ++ ·) []).all Char.isDigit = true := by
    rw [List.all_append]
    exact Bool.and_eq_true _ _ |>.mpr ⟨hg0d, groups_concat_all gs hgs⟩
  have hADne : g0 ++ gs.foldr (· ++ ·) [] ≠ [] :=
    fun h => hg0ne (List.append_eq_nil.mp h).1
  unfold normalize_price mkPriceStr
  rw [show (String.mk (mkPriceChars g0 gs ds)).toList = mkPriceChars g0 gs ds from rfl]
  rw [filter_euro_of_price hg0d hgs hdsd,
    pyRemoveSeq_eur_id _ (no_E_in_price hg0d hgs hdsd)]
  dsimp only
  rw [price_transform g0 gs ds hg0d hgs hdsd,
    findNumMatch_digits _ ds hADall hADne hdsd hds]
  rfl

theorem extract_price_from_band (toFloat : String → Option ℚ)
    (search : ℕ → Option String) :
    ∀ (is : List ℕ) (v : ℚ), extract_price_from toFloat search is = some v →
      1000 ≤ v ∧ v ≤ 100000000 := by
  intro is
  induction is with
  | nil => intro v hv; simp [extract_price_from] at hv
  | cons i rest ih =>
    intro v hv
    unfold extract_price_from at hv
    rcases hsearch : search i with _ | g
    · rw [hsearch] at hv
      exact ih v hv
    · rw [hsearch] at hv
      dsimp only at hv
      rcases hfloat : toFloat (pyCommaDot g) with _ | price
      · rw [hfloat] at hv
        exact ih v hv
      · rw [hfloat] at hv
        dsimp only at hv
        split_ifs at hv with hband
        · cases hv
          exact hband
        · exact ih v hv

theorem priceValue_500 : priceValue ['5', '0', '0'] [] [] = 500 := by
  unfold priceValue
  rw [show (['5', '0', '0'] ++ List.foldr (· ++ ·) [] []) = ['5', '0', '0'] from rfl,
    show natOfDigits ['5', '0', '0'] = 500 from rfl,
    show natOfDigits [] = 0 from rfl]
  norm_num

/-- C6: for every valid price string with dots as thousands separators and a
comma before one or two decimal digits, normalize_price returns the exact
numeric value; in particular parsing 150.000,50 yields 150000.50. -/
theorem C6_parse_price (g0 : List Char) (gs : List (List Char)) (ds : List Char)
    (hg0ne : g0 ≠ []) (hg0d : g0.all Char.isDigit = true)
    (hgs : ∀ g ∈ gs, g.length = 3 ∧ g.all Char.isDigit = true)
    (hds : ds.length ≤ 2) (hdsd : ds.all Char.isDigit = true) :
    normalize_price (mkPriceStr g0 gs ds) = priceValue g0 gs ds ∧
    normalize_price "150.000,50" = 150000 + 1/2 := by
  refine ⟨normalize_price_correct g0 gs ds hg0ne hg0d hgs hds hdsd, ?_⟩
  have h := normalize_price_correct ['1', '5', '0'] [['0', '0', '0']] ['5', '0']
    (by decide) (by decide) (by decide) (by decide) (by decide)
  rw [show mkPriceStr ['1', '5', '0'] [['0', '0', '0']] ['5', '0']
      = "150.000,50" from rfl] at h
  rw [h]
  unfold priceValue
  rw [show (['1', '5', '0'] ++ List.foldr (· ++ ·) [] [['0', '0', '0']])
      = ['1', '5', '0', '0', '0', '0'] from rfl,
    show natOfDigits ['1', '5', '0', '0', '0', '0'] = 150000 from rfl,
    show natOfDigits ['5', '0'] = 50 from rfl]
  norm_num

/-- The decomposition of 150.000,50 exercises C6_parse_price. -/
theorem C6_parse_price_witness :
    normalize_price (mkPriceStr ['1', '5', '0'] [['0', '0', '0']] ['5', '0'])
      = priceValue ['1', '5', '0'] [['0', '0', '0']] ['5', '0'] ∧
    normalize_price "150.000,50" = 150000 + 1/2 :=
  C6_parse_price ['1', '5', '0'] [['0', '0', '0']] ['5', '0']
    (by decide) (by decide) (by decide) (by decide) (by decide)

/-- C7 amended: price parsing during normalization applies no sanity band;
normalize_price returns the parsed value even when it lies outside 1000 to
100000000 (first part); the band is enforced only by the NER extractor,
whose extract_price never returns an out-of-band value for any regex and
float-conversion oracles (second part). -/
theorem C7_sanity_band_location :
    (∀ (g0 : List Char) (gs : List (List Char)) (ds : List Char),
      g0 ≠ [] → g0.all Char.isDigit = true →
      (∀ g ∈ gs, g.length = 3 ∧ g.all Char.isDigit = true) →
      ds.length ≤ 2 → ds.all Char.isDigit = true →
      priceValue g0 gs ds < 1000 ∨ 100000000 < priceValue g0 gs ds →
      normalize_price (mkPriceStr g0 gs ds) = priceValue g0 gs ds) ∧
    (∀ (toFloat : String → Option ℚ) (search : ℕ → Option String) (v : ℚ),
      extract_price toFloat search = some v → 1000 ≤ v ∧ v ≤ 100000000) :=
  ⟨fun g0 gs ds h1 h2 h3 h4 h5 _ => normalize_price_correct g0 gs ds h1 h2 h3 h4 h5,
   fun toFloat search v hv => extract_price_from_band toFloat search [0, 1, 2] v hv⟩

/-- C7 fails on the code as stated of the normalizer: normalize_price maps
the string 500 to the out-of-band value 500 instead of returning no value. -/
theorem C7_counterexample :
    normalize_price "500" = 500 ∧ ¬ (1000 ≤ (500:ℚ) ∧ (500:ℚ) ≤ 100000000) := by
  constructor
  · have h := normalize_price_correct ['5', '0', '0'] [] []
      (by decide) (by decide) (by decide) (by decide) (by decide)
    rw [show mkPriceStr ['5', '0', '0'] [] [] = "500" from rfl] at h
    rw [h, priceValue_500]
  · rintro ⟨h1, -⟩
    norm_num at h1

/-- The string 500 (value below the band) and a two-thousand extraction
exercise C7_sanity_band_location. -/
theorem C7_sanity_band_location_witness :
    normalize_price (mkPriceStr ['5', '0', '0'] [] [])
      = priceValue ['5', '0', '0'] [] [] ∧
    (1000 ≤ (2000:ℚ) ∧ (2000:ℚ) ≤ 100000000) :=
  ⟨C7_sanity_band_location.1 ['5', '0', '0'] [] [] (by decide) (by decide)
     (by decide) (by decide) (by decide) (Or.inl (by rw [priceValue_500]; norm_num)),
   C7_sanity_band_location.2 (fun _ => some 2000) (fun _ => some "x") 2000 rfl⟩
